import Mathlib

/-!
Verification development for the repo-docker-wizard web application.

The sources consist of two files:
 - `src/pages/Index.tsx` — the client form controller (URL validation,
   owner/repo extraction, the mock generation chain, the download action);
 - `src/api/generate-dockerfile.ts` — the server-side generation request
   handler that forwards a templated prompt to the OpenRouter chat-completion
   endpoint.

Each definition below is a shallow embedding of the corresponding TypeScript
function; JavaScript strings are modelled as `String`/`List Char`, JavaScript
`undefined`/absent fields as `Option`, and JavaScript truthiness on strings as
an explicit test against the empty string.
-/

namespace RepoDockerWizard

/-! ### Character classes and JavaScript string primitives

`isSegChar` is the character class `[\w-]` of the validation regex
(ASCII word characters plus hyphen, since the regex carries no `u` flag).
`isJsWhitespace` is the set of code points removed by
`String.prototype.trim` (WhiteSpace plus LineTerminator productions). -/

def isSegChar (c : Char) : Bool :=
  ('a' ≤ c && c ≤ 'z') || ('A' ≤ c && c ≤ 'Z') ||
  ('0' ≤ c && c ≤ '9') || c = '_' || c = '-'

def isJsWhitespace (c : Char) : Bool :=
  c = ' ' || c = '\t' || c = '\n' || c = '\r' ||
  c = '\x0b' || c = '\x0c' || c = '\u00a0' || c = '\u1680' ||
  c = '\u2000' || c = '\u2001' || c = '\u2002' || c = '\u2003' ||
  c = '\u2004' || c = '\u2005' || c = '\u2006' || c = '\u2007' ||
  c = '\u2008' || c = '\u2009' || c = '\u200a' || c = '\u2028' ||
  c = '\u2029' || c = '\u202f' || c = '\u205f' || c = '\u3000' ||
  c = '\ufeff'

/-- Embedding of `url.trim()` at the level of character lists. -/
def jsTrimList (cs : List Char) : List Char :=
  ((cs.dropWhile isJsWhitespace).reverse.dropWhile isJsWhitespace).reverse

/-- Embedding of `url.trim()`. -/
def jsTrim (s : String) : String := ⟨jsTrimList s.data⟩

/-- Decides whether `pat` is an initial segment of `cs`. -/
def startsWithList : List Char → List Char → Bool
  | [], _ => true
  | _ :: _, [] => false
  | p :: ps, c :: cs => p = c && startsWithList ps cs

/-- Decides whether `pat` is a final segment of `cs`. -/
def endsWithList (pat cs : List Char) : Bool :=
  startsWithList pat.reverse cs.reverse

/-! ### `validateGithubUrl` (src/pages/Index.tsx, lines 17-20)

```
const githubPattern = /^https:\/\/github\.com\/[\w-]+\/[\w-]+\/?$/;
return githubPattern.test(url.trim());
```

Both repetitions `[\w-]+` are followed by a character (`/`) or an anchor that
no `[\w-]` character can also match, so the backtracking search of the regex
engine coincides with maximal munch: each group is exactly the maximal run of
segment characters. -/

def ghUrlPrefix : List Char := "https://github.com/".data

/-- Matches `[\w-]+\/[\w-]+\/?$` against the characters after the literal
prefix: a maximal nonempty run of segment characters, a slash, a second
maximal nonempty run, and then nothing or a single slash. -/
def validTail (cs : List Char) : Bool :=
  let o := cs.takeWhile isSegChar
  let d := cs.dropWhile isSegChar
  let r := d.tail.takeWhile isSegChar
  let t := d.tail.dropWhile isSegChar
  decide (o ≠ []) && decide (d.head? = some '/') &&
    decide (r ≠ []) && decide (t = [] ∨ t = ['/'])

def validateGithubUrl (url : String) : Bool :=
  let t := jsTrimList url.data
  startsWithList ghUrlPrefix t && validTail (t.drop ghUrlPrefix.length)

/-! ### `extractRepoInfo` (src/pages/Index.tsx, lines 22-31)

```
const match = url.match(/github\.com\/([^\/]+)\/([^\/]+)/);
if (match) {
  return { owner: match[1], repo: match[2].replace(/\.git$/, '') };
}
return null;
```

The search is unanchored: the engine tries each start position from the left
and keeps the first position where the whole pattern matches.  Both capture
groups `([^\/]+)` are maximal runs of non-`/` characters (the first is
followed by `/`, which no `[^\/]` character matches; the second is last). -/

def ghPat : List Char := "github.com/".data

/-- One attempt of the regex `github\.com\/([^\/]+)\/([^\/]+)` at the start of
`cs`; returns the two capture groups on success. -/
def tryMatchAt (cs : List Char) : Option (List Char × List Char) :=
  if startsWithList ghPat cs then
    let rest := cs.drop ghPat.length
    let a := rest.takeWhile (fun c => c ≠ '/')
    if a.isEmpty then none
    else
      match rest.dropWhile (fun c => c ≠ '/') with
      | '/' :: rest2 =>
        let b := rest2.takeWhile (fun c => c ≠ '/')
        if b.isEmpty then none else some (a, b)
      | _ => none
  else none

/-- Leftmost match of `github\.com\/([^\/]+)\/([^\/]+)`. -/
def findGithubMatch : List Char → Option (List Char × List Char)
  | [] => none
  | c :: cs =>
    match tryMatchAt (c :: cs) with
    | some r => some r
    | none => findGithubMatch cs

/-- Embedding of `repo.replace(/\.git$/, '')`: removes one trailing `.git`. -/
def stripGitSuffix (cs : List Char) : List Char :=
  if endsWithList ".git".data cs then cs.take (cs.length - 4) else cs

structure RepoRef where
  owner : String
  repo : String
deriving DecidableEq, Repr

def extractRepoInfo (url : String) : Option RepoRef :=
  match findGithubMatch url.data with
  | none => none
  | some (o, r) => some ⟨⟨o⟩, ⟨stripGitSuffix r⟩⟩

/-! ### The mock Dockerfile templates (src/pages/Index.tsx, lines 61-247)

Each definition reproduces one entry of the `dockerfileTemplates` object; the
template-literal interpolation of `repoInfo.repo` becomes a function
argument. -/

def jsTemplate (repo : String) : String :=
  "# Node.js Dockerfile for " ++ repo ++ "\nFROM node:18-alpine\n\nWORKDIR /app\n\n# Copy package files\nCOPY package*.json ./\n\n# Install dependencies\nRUN npm ci --only=production\n\n# Copy source code\nCOPY . .\n\n# Build the application\nRUN npm run build\n\n# Expose port\nEXPOSE 3000\n\n# Health check\nHEALTHCHECK --interval=30s --timeout=3s --start-period=5s --retries=3 \\\n  CMD curl -f http://localhost:3000/health || exit 1\n\n# Start the application\nCMD [\"npm\", \"start\"]"

def tsTemplate (repo : String) : String :=
  "# TypeScript Node.js Dockerfile for " ++ repo ++ "\nFROM node:18-alpine AS builder\n\nWORKDIR /app\n\n# Copy package files\nCOPY package*.json ./\nCOPY tsconfig.json ./\n\n# Install all dependencies (including dev dependencies for build)\nRUN npm ci\n\n# Copy source code\nCOPY . .\n\n# Build the TypeScript application\nRUN npm run build\n\n# Production stage\nFROM node:18-alpine AS production\n\nWORKDIR /app\n\n# Copy package files\nCOPY package*.json ./\n\n# Install only production dependencies\nRUN npm ci --only=production && npm cache clean --force\n\n# Copy built application from builder stage\nCOPY --from=builder /app/dist ./dist\n\n# Create non-root user\nRUN addgroup -g 1001 -S nodejs\nRUN adduser -S nextjs -u 1001\n\nUSER nextjs\n\n# Expose port\nEXPOSE 3000\n\n# Health check\nHEALTHCHECK --interval=30s --timeout=3s --start-period=5s --retries=3 \\\n  CMD curl -f http://localhost:3000/health || exit 1\n\n# Start the application\nCMD [\"node\", \"dist/index.js\"]"

def pythonTemplate (repo : String) : String :=
  "# Python Dockerfile for " ++ repo ++ "\nFROM python:3.11-slim\n\nWORKDIR /app\n\n# Install system dependencies\nRUN apt-get update && apt-get install -y \\\n    gcc \\\n    && rm -rf /var/lib/apt/lists/*\n\n# Copy requirements first for better caching\nCOPY requirements.txt .\n\n# Install Python dependencies\nRUN pip install --no-cache-dir -r requirements.txt\n\n# Copy source code\nCOPY . .\n\n# Create non-root user\nRUN useradd --create-home --shell /bin/bash app\nUSER app\n\n# Expose port\nEXPOSE 8000\n\n# Health check\nHEALTHCHECK --interval=30s --timeout=3s --start-period=5s --retries=3 \\\n  CMD curl -f http://localhost:8000/health || exit 1\n\n# Start the application\nCMD [\"python\", \"app.py\"]"

def javaTemplate (repo : String) : String :=
  "# Java Dockerfile for " ++ repo ++ "\nFROM openjdk:17-jdk-slim AS builder\n\nWORKDIR /app\n\n# Copy Maven files\nCOPY pom.xml ./\nCOPY mvnw ./\nCOPY .mvn ./.mvn\n\n# Download dependencies\nRUN ./mvnw dependency:go-offline\n\n# Copy source code\nCOPY src ./src\n\n# Build the application\nRUN ./mvnw clean package -DskipTests\n\n# Production stage\nFROM openjdk:17-jre-slim\n\nWORKDIR /app\n\n# Copy JAR from builder stage\nCOPY --from=builder /app/target/*.jar app.jar\n\n# Create non-root user\nRUN addgroup --system javauser && adduser --system --group javauser\nUSER javauser\n\n# Expose port\nEXPOSE 8080\n\n# Health check\nHEALTHCHECK --interval=30s --timeout=3s --start-period=5s --retries=3 \\\n  CMD curl -f http://localhost:8080/actuator/health || exit 1\n\n# Start the application\nCMD [\"java\", \"-jar\", \"app.jar\"]"

def goTemplate (repo : String) : String :=
  "# Go Dockerfile for " ++ repo ++ "\nFROM golang:1.21-alpine AS builder\n\nWORKDIR /app\n\n# Copy go mod files\nCOPY go.mod go.sum ./\n\n# Download dependencies\nRUN go mod download\n\n# Copy source code\nCOPY . .\n\n# Build the application\nRUN CGO_ENABLED=0 GOOS=linux go build -a -installsuffix cgo -o main .\n\n# Production stage\nFROM alpine:latest\n\nRUN apk --no-cache add ca-certificates\n\nWORKDIR /root/\n\n# Copy binary from builder stage\nCOPY --from=builder /app/main .\n\n# Expose port\nEXPOSE 8080\n\n# Health check\nHEALTHCHECK --interval=30s --timeout=3s --start-period=5s --retries=3 \\\n  CMD wget --no-verbose --tries=1 --spider http://localhost:8080/health || exit 1\n\n# Start the application\nCMD [\"./main\"]"

/-- The candidate mock languages
(`['JavaScript', 'TypeScript', 'Python', 'Java', 'Go']`). -/
def mockLanguages : List String :=
  ["JavaScript", "TypeScript", "Python", "Java", "Go"]

/-- Embedding of `mockLanguages[Math.floor(Math.random() * 5)]`; the random
draw becomes the parameter `k : Fin 5`. -/
def mockLanguage (k : Fin 5) : String :=
  mockLanguages.get ⟨k.val, by simp [mockLanguages]⟩

/-- Embedding of
`dockerfileTemplates[mockLanguage ...] || dockerfileTemplates['JavaScript']`:
key lookup in the template object, with the JavaScript template as the
fallback for the `||`. -/
def templateFor (language repo : String) : String :=
  if language = "JavaScript" then jsTemplate repo
  else if language = "TypeScript" then tsTemplate repo
  else if language = "Python" then pythonTemplate repo
  else if language = "Java" then javaTemplate repo
  else if language = "Go" then goTemplate repo
  else jsTemplate repo

/-! ### The client generation chain (src/pages/Index.tsx, lines 33-266)

The chain of `generateDockerfile` is modelled as the list of observable
effects it performs, in order.  The constructor `networkCall` exists so that
absence of network traffic is expressible; this variant of the client is a
mock and never emits it (it performs no `fetch` at all). -/

inductive Effect where
  | toast (title description : String)
  | setIsGenerating (flag : Bool)
  | delay (ms : Nat)
  | setRepoInfo (name language : String)
  | setGeneratedDockerfile (text : String)
  | networkCall (url : String)
deriving DecidableEq, Repr

/-- Embedding of the client `generateDockerfile` handler.  `randLang` stands
for the draw `Math.floor(Math.random() * 5)`.  The `throw` of
`'Could not parse repository info'` lands in the `catch` block, whose toast is
the only observable outcome of that branch; `setIsGenerating false` runs in
the `finally` block. -/
def generateDockerfile (repoUrl : String) (randLang : Fin 5) : List Effect :=
  if validateGithubUrl repoUrl = false then
    [.toast "Invalid GitHub URL" "Please enter a valid GitHub repository URL"]
  else
    .setIsGenerating true ::
    (match extractRepoInfo repoUrl with
     | none =>
       [.toast "Generation Failed" "Failed to generate Dockerfile. Please try again."]
     | some info =>
       let lang := mockLanguage randLang
       [.delay 3000,
        .setRepoInfo (info.owner ++ "/" ++ info.repo) lang,
        .setGeneratedDockerfile (templateFor lang info.repo),
        .toast "Dockerfile Generated!"
          ("Successfully generated Dockerfile for " ++ lang ++ " project")])
    ++ [.setIsGenerating false]

/-- Embedding of `downloadDockerfile` (src/pages/Index.tsx, lines 268-285):
returns the content of the `Dockerfile` file handed to the browser, or `none`
when the guard `if (!generatedDockerfile) return;` fires (JavaScript
truthiness: the empty string is falsy). -/
def downloadDockerfile (generatedDockerfile : String) : Option String :=
  if generatedDockerfile = "" then none else some generatedDockerfile

/-! ### The generation request handler (src/api/generate-dockerfile.ts)

The handler is a pure function of the request, the process environment, and
the (parsed JSON) response of the one outbound `fetch`.  Its value is the
HTTP response it sends plus the list of outbound requests it issued, so that
"without invoking the external model call" is expressible.  JSON fields that
may be absent are `Option`s; accessing index `0` of an absent `choices` field
throws a `TypeError`, which the `catch` block converts to a 500 response
carrying the `TypeError`'s message. -/

structure RepoInfo where
  name : String
  language : String
  description : String
deriving DecidableEq, Repr

/-- The request as read by the handler: `req.method` and
`req.body.repoInfo`. -/
structure Req where
  method : String
  repoInfo : Option RepoInfo
deriving DecidableEq, Repr

/-- The two environment variables the handler reads. -/
structure Env where
  OPENROUTER_API_KEY : Option String
  NEXT_PUBLIC_SITE_URL : Option String
deriving DecidableEq, Repr

structure MessageObj where
  content : Option String
deriving DecidableEq, Repr

structure ChoiceObj where
  message : Option MessageObj
deriving DecidableEq, Repr

structure ErrorObj where
  message : Option String
deriving DecidableEq, Repr

/-- The parsed JSON body of the upstream response; `error` is read on the
non-ok path, `choices` on the ok path.  `none` means the field is absent. -/
structure UpstreamBody where
  error : Option ErrorObj
  choices : Option (List ChoiceObj)
deriving DecidableEq, Repr

structure UpstreamResponse where
  ok : Bool
  body : UpstreamBody
deriving DecidableEq, Repr

inductive RespBody where
  | errorMsg (error : String)
  | success (dockerfile : String)
deriving DecidableEq, Repr

structure HttpResponse where
  status : Nat
  body : RespBody
deriving DecidableEq, Repr

/-- The outbound OpenRouter request: URL, headers, and JSON body fields. -/
structure OutboundRequest where
  url : String
  method : String
  authorization : String
  contentType : String
  referer : String
  xTitle : String
  model : String
  messages : List (String × String)
  temperature : ℚ
  max_tokens : Nat
deriving DecidableEq, Repr

/-- Embedding of `x || d` for an optional environment string (absent and
empty are both falsy). -/
def jsOrDefault (x : Option String) (d : String) : String :=
  match x with
  | none => d
  | some s => if s = "" then d else s

/-- The prompt template of the handler (lines 21-37), with the three
`repoInfo` interpolations as arguments. -/
def buildPrompt (info : RepoInfo) : String :=
  "Generate a production-ready Dockerfile for a " ++ info.language ++ " project named \"" ++ info.name ++ "\". \n    \nProject details:\n- Language: " ++ info.language ++ "\n- Description: " ++ info.description ++ "\n\nRequirements:\n- Use multi-stage builds when appropriate\n- Include security best practices\n- Add health checks\n- Optimize for production\n- Include comments explaining each step\n- Use appropriate base images\n- Set up proper user permissions\n- Include environment variables where needed\n\nGenerate ONLY the Dockerfile content, no additional text or explanations."

def systemContent : String :=
  "You are an expert DevOps engineer specializing in Docker containerization. Generate production-ready Dockerfiles with best practices."

def openRouterUrl : String := "https://openrouter.ai/api/v1/chat/completions"

def modelId : String := "meta-llama/llama-3.1-8b-instruct:free"

/-- The `fetch` call the handler builds (lines 39-62). -/
def buildRequest (apiKey referer : String) (info : RepoInfo) : OutboundRequest :=
  { url := openRouterUrl
    method := "POST"
    authorization := "Bearer " ++ apiKey
    contentType := "application/json"
    referer := referer
    xTitle := "DockerGen - AI Dockerfile Generator"
    model := modelId
    messages := [("system", systemContent), ("user", buildPrompt info)]
    temperature := 7/10
    max_tokens := 2000 }

def fallbackError : String := "Failed to generate Dockerfile"

/-- Embedding of `errorData.error?.message || 'Failed to generate Dockerfile'`
(line 66); an empty message is falsy. -/
def extractErrorMessage (body : UpstreamBody) : String :=
  match body.error with
  | none => fallbackError
  | some e =>
    match e.message with
    | none => fallbackError
    | some m => if m = "" then fallbackError else m

/-- Embedding of `data.choices[0]?.message?.content || ''` (line 70), given
that the `choices` field is present. -/
def firstChoiceContent (choices : List ChoiceObj) : String :=
  match choices with
  | [] => ""
  | c :: _ =>
    match c.message with
    | none => ""
    | some m =>
      match m.content with
      | none => ""
      | some s => s

/-- The message of the `TypeError` thrown by `data.choices[0]` when `choices`
is absent (`data.choices` is `undefined` and indexing it throws before the
optional chain starts). -/
def typeErrorUndefinedIndex : String :=
  "Cannot read properties of undefined (reading '0')"

/-- Embedding of the request handler of `src/api/generate-dockerfile.ts`.
Returns the HTTP response sent and the list of outbound model requests
issued.  `upstream` is the parsed response of the `fetch` call, consulted
only if that call is reached. -/
def handler (env : Env) (req : Req) (upstream : UpstreamResponse) :
    HttpResponse × List OutboundRequest :=
  if req.method ≠ "POST" then
    (⟨405, .errorMsg "Method not allowed"⟩, [])
  else
    match req.repoInfo with
    | none => (⟨400, .errorMsg "Repository information is required"⟩, [])
    | some info =>
      match env.OPENROUTER_API_KEY with
      | none => (⟨500, .errorMsg "API key not configured"⟩, [])
      | some key =>
        if key = "" then (⟨500, .errorMsg "API key not configured"⟩, [])
        else
          let outReq := buildRequest key
            (jsOrDefault env.NEXT_PUBLIC_SITE_URL "http://localhost:3000") info
          if upstream.ok = false then
            (⟨500, .errorMsg (extractErrorMessage upstream.body)⟩, [outReq])
          else
            match upstream.body.choices with
            | none => (⟨500, .errorMsg typeErrorUndefinedIndex⟩, [outReq])
            | some choices =>
              (⟨200, .success (firstChoiceContent choices)⟩, [outReq])

/-! ### Components modelled from the spec

The sources contain the mock client variant; the server-calling client
variant the spec describes (metadata fetch, trim-before-display) is not
among them and is modelled from the spec's words below. -/

/-- The repository-information JSON fields the spec's metadata mapper
reads. -/
structure GithubRepoJson where
  language : Option String
  description : Option String
deriving DecidableEq, Repr

/-- The outcome of the repository-metadata fetch: HTTP success flag and
parsed body. -/
structure MetadataFetchResult where
  ok : Bool
  body : GithubRepoJson
deriving DecidableEq, Repr

/-- Observable effects of the spec's generation chain. -/
inductive ChainEffect where
  | toast (title description : String)
  | metadataFetch (owner repo : String)
  | generateCall (info : RepoInfo)
deriving DecidableEq, Repr

/-- Modelled from the spec: the server-calling client variant (spec sections
4.2, 4.4 and 8) is missing from the sources — `src/pages/Index.tsx` holds the
mock variant.  Per the spec the chain sequences validation → metadata fetch →
generation call; on a non-success metadata status it signals a "not found"
condition and aborts; on success it maps the external JSON to the internal
record, substituting the placeholder "Unknown" when the upstream language
field is absent. -/
def generationChainSpec (repoUrl : String) (meta : MetadataFetchResult) :
    List ChainEffect :=
  if validateGithubUrl repoUrl = false then
    [.toast "Invalid GitHub URL" "Please enter a valid GitHub repository URL"]
  else
    match extractRepoInfo repoUrl with
    | none => [.toast "Generation Failed" "Could not parse repository info"]
    | some ref =>
      .metadataFetch ref.owner ref.repo ::
      (if meta.ok = false then
        [.toast "Repository not found" "Please check the URL and try again"]
      else
        [.generateCall ⟨ref.owner ++ "/" ++ ref.repo,
          jsOrDefault meta.body.language "Unknown",
          jsOrDefault meta.body.description ""⟩])

/-- Modelled from the spec: the display step of the server-calling client is
missing from the sources; per the spec ("raw text returned by the model,
trimmed of leading/trailing whitespace before display"), the client stores
the returned `dockerfile` field trimmed, and that stored text is what the
read-only text area displays and what the download action serializes. -/
def displayedDockerfile (dockerfile : String) : String := jsTrim dockerfile

/-- The URL shape in the spec's words: `https://github.com/<owner>/<repo>`,
optional trailing slash, word characters and hyphens only in each segment,
stated over the already-trimmed character list.  This is the spec-side
definition to be compared with the source-derived `validateGithubUrl`. -/
def SpecRepoShape (cs : List Char) : Prop :=
  ∃ o r t, cs = ghUrlPrefix ++ (o ++ '/' :: (r ++ t)) ∧
    o ≠ [] ∧ (∀ c ∈ o, isSegChar c = true) ∧
    r ≠ [] ∧ (∀ c ∈ r, isSegChar c = true) ∧
    (t = [] ∨ t = ['/'])

/-! ### Helper lemmas about the string primitives -/

theorem takeWhile_append_all {α : Type} (p : α → Bool) (xs ys : List α)
    (h : ∀ x ∈ xs, p x = true) :
    (xs ++ ys).takeWhile p = xs ++ ys.takeWhile p := by
  induction xs with
  | nil => simp
  | cons a l ih =>
    have ha : p a = true := h a (by simp)
    rw [List.cons_append, List.takeWhile_cons_of_pos ha,
      ih (fun x hx => h x (List.mem_cons_of_mem a hx)), List.cons_append]

theorem dropWhile_append_all {α : Type} (p : α → Bool) (xs ys : List α)
    (h : ∀ x ∈ xs, p x = true) :
    (xs ++ ys).dropWhile p = ys.dropWhile p := by
  induction xs with
  | nil => simp
  | cons a l ih =>
    have ha : p a = true := h a (by simp)
    rw [List.cons_append, List.dropWhile_cons_of_pos ha,
      ih (fun x hx => h x (List.mem_cons_of_mem a hx))]

theorem takeWhile_all {α : Type} (p : α → Bool) (xs : List α)
    (h : ∀ x ∈ xs, p x = true) : xs.takeWhile p = xs := by
  have := takeWhile_append_all p xs [] h
  simpa using this

theorem startsWithList_iff (p l : List Char) :
    startsWithList p l = true ↔ ∃ t, l = p ++ t := by
  induction p generalizing l with
  | nil => simp [startsWithList]
  | cons a ps ih =>
    cases l with
    | nil => simp [startsWithList]
    | cons c cs =>
      simp only [startsWithList, Bool.and_eq_true, decide_eq_true_eq, ih,
        List.cons_append, List.cons.injEq]
      constructor
      · rintro ⟨rfl, t, rfl⟩
        exact ⟨t, rfl, rfl⟩
      · rintro ⟨t, rfl, rfl⟩
        exact ⟨rfl, t, rfl⟩

theorem startsWithList_append (p t : List Char) :
    startsWithList p (p ++ t) = true :=
  (startsWithList_iff p (p ++ t)).mpr ⟨t, rfl⟩

theorem endsWithList_iff (p l : List Char) :
    endsWithList p l = true ↔ ∃ s, l = s ++ p := by
  unfold endsWithList
  rw [startsWithList_iff]
  constructor
  · rintro ⟨t, ht⟩
    refine ⟨t.reverse, ?_⟩
    have h2 := congrArg List.reverse ht
    simpa using h2
  · rintro ⟨s, rfl⟩
    exact ⟨s.reverse, by simp⟩

theorem segChar_ne_slash {c : Char} (h : isSegChar c = true) : c ≠ '/' := by
  rintro rfl
  exact absurd h (by decide)

theorem segChar_ne_dot {c : Char} (h : isSegChar c = true) : c ≠ '.' := by
  rintro rfl
  exact absurd h (by decide)

theorem jsWs_ne_g {c : Char} (h : isJsWhitespace c = true) : c ≠ 'g' := by
  rintro rfl
  exact absurd h (by decide)

theorem jsWs_ne_slash {c : Char} (h : isJsWhitespace c = true) : c ≠ '/' := by
  rintro rfl
  exact absurd h (by decide)

theorem jsWs_ne_dot {c : Char} (h : isJsWhitespace c = true) : c ≠ '.' := by
  rintro rfl
  exact absurd h (by decide)

/-- Characterization of the tail matcher of the validation regex. -/
theorem validTail_iff (cs : List Char) :
    validTail cs = true ↔
      ∃ o r t, cs = o ++ '/' :: (r ++ t) ∧ o ≠ [] ∧
        (∀ c ∈ o, isSegChar c = true) ∧ r ≠ [] ∧
        (∀ c ∈ r, isSegChar c = true) ∧ (t = [] ∨ t = ['/']) := by
  constructor
  · intro h
    simp only [validTail, Bool.and_eq_true, decide_eq_true_eq] at h
    obtain ⟨⟨⟨ho, hhd⟩, hr⟩, ht⟩ := h
    have hsplit := List.takeWhile_append_dropWhile isSegChar cs
    rcases hd : cs.dropWhile isSegChar with _ | ⟨c1, rest⟩
    · rw [hd] at hhd
      exact absurd hhd (by simp)
    · rw [hd] at hhd hsplit
      have hc1 : c1 = '/' := by simpa using hhd
      subst hc1
      rw [hd] at hr ht
      simp only [List.tail_cons] at hr ht
      refine ⟨cs.takeWhile isSegChar, rest.takeWhile isSegChar,
        rest.dropWhile isSegChar, ?_, ho, ?_, hr, ?_, ht⟩
      · rw [List.takeWhile_append_dropWhile isSegChar rest]
        exact hsplit.symm
      · exact fun c hc => List.mem_takeWhile_imp hc
      · exact fun c hc => List.mem_takeWhile_imp hc
  · rintro ⟨o, r, t, rfl, ho, hoseg, hr, hrseg, ht⟩
    have hslash : isSegChar '/' = false := by decide
    have htk : (o ++ '/' :: (r ++ t)).takeWhile isSegChar = o := by
      rw [takeWhile_append_all isSegChar o _ hoseg,
        List.takeWhile_cons_of_neg (by simp [hslash])]
      simp
    have hdr : (o ++ '/' :: (r ++ t)).dropWhile isSegChar = '/' :: (r ++ t) := by
      rw [dropWhile_append_all isSegChar o _ hoseg,
        List.dropWhile_cons_of_neg (by simp [hslash])]
    have hrt : (r ++ t).takeWhile isSegChar = r := by
      rcases ht with rfl | rfl
      · simpa using takeWhile_all isSegChar r hrseg
      · rw [takeWhile_append_all isSegChar r _ hrseg,
          List.takeWhile_cons_of_neg (by simp [hslash])]
        simp
    have hrd : (r ++ t).dropWhile isSegChar = t := by
      rcases ht with rfl | rfl
      · simpa using dropWhile_append_all isSegChar r [] hrseg
      · rw [dropWhile_append_all isSegChar r _ hrseg,
          List.dropWhile_cons_of_neg (by simp [hslash])]
    simp only [validTail, htk, hdr, List.tail_cons, hrt, hrd,
      Bool.and_eq_true, decide_eq_true_eq]
    refine ⟨⟨⟨ho, rfl⟩, hr⟩, ?_⟩
    rcases ht with rfl | rfl
    · exact Or.inl rfl
    · exact Or.inr rfl

/-- The source validator accepts exactly the spec's URL shape (on the trimmed
input). -/
theorem validateGithubUrl_iff_specShape (url : String) :
    validateGithubUrl url = true ↔ SpecRepoShape (jsTrimList url.data) := by
  unfold validateGithubUrl SpecRepoShape
  simp only [Bool.and_eq_true, startsWithList_iff]
  constructor
  · rintro ⟨⟨x, hx⟩, hvt⟩
    rw [hx, List.drop_left] at hvt
    obtain ⟨o, r, t, rfl, props⟩ := (validTail_iff x).mp hvt
    exact ⟨o, r, t, by rw [hx], props.1, props.2.1, props.2.2.1, props.2.2.2.1,
      props.2.2.2.2⟩
  · rintro ⟨o, r, t, heq, ho, hoseg, hr, hrseg, ht⟩
    rw [heq]
    refine ⟨⟨o ++ '/' :: (r ++ t), rfl⟩, ?_⟩
    rw [List.drop_left]
    exact (validTail_iff _).mpr ⟨o, r, t, rfl, ho, hoseg, hr, hrseg, ht⟩

theorem reverse_dropWhile_split (p : Char → Bool) (m : List Char) :
    m = (m.reverse.dropWhile p).reverse ++ (m.reverse.takeWhile p).reverse := by
  have hm := congrArg List.reverse (List.takeWhile_append_dropWhile p m.reverse)
  rw [List.reverse_append, List.reverse_reverse] at hm
  exact hm.symm

/-- Any character list splits as leading whitespace, its trim, and trailing
whitespace. -/
theorem jsTrimList_split (cs : List Char) :
    ∃ ws1 ws2, cs = ws1 ++ (jsTrimList cs ++ ws2) ∧
      (∀ c ∈ ws1, isJsWhitespace c = true) ∧
      (∀ c ∈ ws2, isJsWhitespace c = true) := by
  refine ⟨cs.takeWhile isJsWhitespace,
    ((cs.dropWhile isJsWhitespace).reverse.takeWhile isJsWhitespace).reverse,
    ?_, ?_, ?_⟩
  · have h1 := (List.takeWhile_append_dropWhile isJsWhitespace cs).symm
    have h2 := reverse_dropWhile_split isJsWhitespace (cs.dropWhile isJsWhitespace)
    exact h1.trans (congrArg (cs.takeWhile isJsWhitespace ++ ·) h2)
  · exact fun c hc => List.mem_takeWhile_imp hc
  · intro c hc
    rw [List.mem_reverse] at hc
    exact List.mem_takeWhile_imp hc

/-! ### Helper lemmas about the unanchored extraction regex -/

theorem tryMatchAt_none_of_ne_g (c : Char) (cs : List Char) (h : c ≠ 'g') :
    tryMatchAt (c :: cs) = none := by
  have hfalse : startsWithList ghPat (c :: cs) = false := by
    cases hsw : startsWithList ghPat (c :: cs) with
    | false => rfl
    | true =>
      obtain ⟨t, ht⟩ := (startsWithList_iff _ _).mp hsw
      have hg : ghPat ++ t = 'g' :: ("ithub.com/".data ++ t) := rfl
      rw [hg] at ht
      injection ht with h1 _
      exact absurd h1 h
  unfold tryMatchAt
  rw [hfalse]
  simp

theorem findGithubMatch_skip (pre rest : List Char) (h : ∀ c ∈ pre, c ≠ 'g') :
    findGithubMatch (pre ++ rest) = findGithubMatch rest := by
  induction pre with
  | nil => rfl
  | cons c l ih =>
    rw [List.cons_append]
    have hnone := tryMatchAt_none_of_ne_g c (l ++ rest) (h c (by simp))
    show (match tryMatchAt (c :: (l ++ rest)) with
      | some r => some r
      | none => findGithubMatch (l ++ rest)) = findGithubMatch rest
    rw [hnone]
    exact ih (fun x hx => h x (by simp [hx]))

theorem tryMatchAt_gh (o rest2 : List Char) (ho : o ≠ [])
    (hos : ∀ c ∈ o, c ≠ '/') (hb : rest2.takeWhile (fun c => c ≠ '/') ≠ []) :
    tryMatchAt (ghPat ++ (o ++ '/' :: rest2)) =
      some (o, rest2.takeWhile (fun c => c ≠ '/')) := by
  have hsw := startsWithList_append ghPat (o ++ '/' :: rest2)
  have hA : (o ++ '/' :: rest2).takeWhile (fun c => decide (c ≠ '/')) = o := by
    rw [takeWhile_append_all _ o _ (fun x hx => by simp [hos x hx]),
      List.takeWhile_cons_of_neg (by simp)]
    simp
  have hD : (o ++ '/' :: rest2).dropWhile (fun c => decide (c ≠ '/')) = '/' :: rest2 := by
    rw [dropWhile_append_all _ o _ (fun x hx => by simp [hos x hx])]
    exact List.dropWhile_cons_of_neg (by simp)
  have ho' : o.isEmpty = false := by
    cases o with
    | nil => exact absurd rfl ho
    | cons _ _ => rfl
  have hb' : (rest2.takeWhile (fun c => decide (c ≠ '/'))).isEmpty = false := by
    cases hbb : rest2.takeWhile (fun c => decide (c ≠ '/')) with
    | nil => exact absurd hbb hb
    | cons _ _ => rfl
  unfold tryMatchAt
  rw [hsw]
  simp only [if_true, List.drop_left, hA, hD, ho', hb']
  simp

theorem stripGitSuffix_eq_of_no_dot (b : List Char) (h : ∀ c ∈ b, c ≠ '.') :
    stripGitSuffix b = b := by
  unfold stripGitSuffix
  cases hE : endsWithList ".git".data b with
  | false => simp
  | true =>
    exfalso
    obtain ⟨s, rfl⟩ := (endsWithList_iff _ _).mp hE
    have hdot : '.' ∈ s ++ ".git".data := by
      have h4 : ".git".data = ['.', 'g', 'i', 't'] := rfl
      rw [h4]
      simp
    exact h '.' hdot rfl

/-- On every URL the validator accepts, the extraction regex matches, the
owner group is the owner segment, and the repo group consists of segment
characters possibly followed by trailing whitespace of the raw (untrimmed)
input. -/
theorem findGithubMatch_of_valid (url : String)
    (h : validateGithubUrl url = true) :
    ∃ o b, findGithubMatch url.data = some (o, b) ∧ b ≠ [] ∧
      (∀ c ∈ b, isSegChar c = true ∨ isJsWhitespace c = true) := by
  obtain ⟨o, r, t, htrim, ho, hoseg, hr, hrseg, ht⟩ :=
    (validateGithubUrl_iff_specShape url).mp h
  obtain ⟨ws1, ws2, hsplit, hws1, hws2⟩ := jsTrimList_split url.data
  rw [htrim] at hsplit
  have hpre : ghUrlPrefix = "https://".data ++ ghPat := rfl
  have hurl : url.data =
      (ws1 ++ "https://".data) ++ (ghPat ++ (o ++ '/' :: ((r ++ t) ++ ws2))) := by
    rw [hsplit, hpre]
    simp [List.append_assoc]
  have hskip : ∀ c ∈ ws1 ++ "https://".data, c ≠ 'g' := by
    intro c hc
    rcases List.mem_append.mp hc with h1 | h2
    · exact jsWs_ne_g (hws1 c h1)
    · have hhttps : "https://".data = ['h', 't', 't', 'p', 's', ':', '/', '/'] := rfl
      rw [hhttps] at h2
      fin_cases h2 <;> decide
  have hos : ∀ c ∈ o, c ≠ '/' := fun c hc => segChar_ne_slash (hoseg c hc)
  have hB : ((r ++ t) ++ ws2).takeWhile (fun c => decide (c ≠ '/')) =
      r ++ (if t = [] then ws2 else []) := by
    rcases ht with rfl | rfl
    · rw [if_pos rfl, List.append_nil,
        takeWhile_append_all _ r _
          (fun x hx => by simp [segChar_ne_slash (hrseg x hx)]),
        takeWhile_all _ ws2 (fun x hx => by simp [jsWs_ne_slash (hws2 x hx)])]
    · have hne : (['/'] : List Char) ≠ [] := by simp
      rw [if_neg hne, List.append_assoc, List.singleton_append,
        takeWhile_append_all _ r _
          (fun x hx => by simp [segChar_ne_slash (hrseg x hx)]),
        List.takeWhile_cons_of_neg (by simp)]
  have hBne : ((r ++ t) ++ ws2).takeWhile (fun c => c ≠ '/') ≠ [] := by
    rw [hB]
    intro habs
    exact hr (List.append_eq_nil.mp habs).1
  have htry := tryMatchAt_gh o ((r ++ t) ++ ws2) ho hos hBne
  refine ⟨o, ((r ++ t) ++ ws2).takeWhile (fun c => c ≠ '/'), ?_, hBne, ?_⟩
  · rw [hurl, findGithubMatch_skip _ _ hskip]
    have hcons : ghPat ++ (o ++ '/' :: ((r ++ t) ++ ws2)) =
        'g' :: ("ithub.com/".data ++ (o ++ '/' :: ((r ++ t) ++ ws2))) := rfl
    rw [hcons]
    show (match tryMatchAt ('g' :: ("ithub.com/".data ++ (o ++ '/' :: ((r ++ t) ++ ws2)))) with
      | some res => some res
      | none => findGithubMatch ("ithub.com/".data ++ (o ++ '/' :: ((r ++ t) ++ ws2)))) =
      some (o, ((r ++ t) ++ ws2).takeWhile (fun c => c ≠ '/'))
    rw [← hcons, htry]
  · intro c hc
    rw [hB] at hc
    rcases List.mem_append.mp hc with h1 | h2
    · exact Or.inl (hrseg c h1)
    · rcases ht with rfl | rfl
      · rw [if_pos rfl] at h2
        exact Or.inr (hws2 c h2)
      · have hne : (['/'] : List Char) ≠ [] := by simp
        rw [if_neg hne] at h2
        exact absurd h2 (List.not_mem_nil c)

/-! ### Claims about the URL validator, the extraction, and the mock chain -/

/-- C2: for every input string whose trimmed form does not match the shape
`https://github.com/<owner>/<repo>` (optional trailing slash, word characters
and hyphens only in each segment), the validator returns false and the
generation chain started on that input issues no network call. -/
theorem claim2_invalid_url_rejected_no_network (url : String)
    (h : ¬ SpecRepoShape (jsTrimList url.data)) :
    validateGithubUrl url = false ∧
      ∀ (k : Fin 5), ∀ e ∈ generateDockerfile url k,
        ∀ u, e ≠ Effect.networkCall u := by
  have hv : validateGithubUrl url = false := by
    cases hvv : validateGithubUrl url with
    | false => rfl
    | true => exact absurd ((validateGithubUrl_iff_specShape url).mp hvv) h
  refine ⟨hv, ?_⟩
  intro k e he u
  simp only [generateDockerfile, hv, if_pos, List.mem_singleton] at he
  subst he
  exact fun habs => Effect.noConfusion habs

/-- Witness for C2 at the concrete input "not a url". -/
theorem claim2_witness :
    ¬ SpecRepoShape (jsTrimList "not a url".data) ∧
      (validateGithubUrl "not a url" = false ∧
        ∀ (k : Fin 5), ∀ e ∈ generateDockerfile "not a url" k,
          ∀ u, e ≠ Effect.networkCall u) := by
  have hns : ¬ SpecRepoShape (jsTrimList "not a url".data) := by
    intro hs
    have hv := (validateGithubUrl_iff_specShape "not a url").mpr hs
    exact absurd hv (by decide)
  exact ⟨hns, claim2_invalid_url_rejected_no_network "not a url" hns⟩

/-- C7: on every URL the validator accepts, `extractRepoInfo` succeeds, its
repo component is the matched repository segment with a trailing `.git`
stripped, and the stripping is idempotent: applying it to the already
stripped segment changes nothing. -/
theorem claim7_extract_strips_git_idempotent (url : String)
    (h : validateGithubUrl url = true) :
    ∃ o b, findGithubMatch url.data = some (o, b) ∧
      extractRepoInfo url = some ⟨⟨o⟩, ⟨stripGitSuffix b⟩⟩ ∧
      stripGitSuffix b = b ∧
      stripGitSuffix (stripGitSuffix b) = stripGitSuffix b := by
  obtain ⟨o, b, hfind, hbne, hprops⟩ := findGithubMatch_of_valid url h
  have hnd : ∀ c ∈ b, c ≠ '.' := by
    intro c hc
    rcases hprops c hc with h1 | h1
    · exact segChar_ne_dot h1
    · exact jsWs_ne_dot h1
  have hstrip : stripGitSuffix b = b := stripGitSuffix_eq_of_no_dot b hnd
  refine ⟨o, b, hfind, ?_, hstrip, by rw [hstrip, hstrip]⟩
  unfold extractRepoInfo
  rw [hfind]

/-- Witness for C7 at the concrete URL of the spec's example scenario. -/
theorem claim7_witness :
    validateGithubUrl "https://github.com/octocat/Hello-World" = true ∧
      ∃ o b,
        findGithubMatch "https://github.com/octocat/Hello-World".data =
          some (o, b) ∧
        extractRepoInfo "https://github.com/octocat/Hello-World" =
          some ⟨⟨o⟩, ⟨stripGitSuffix b⟩⟩ ∧
        stripGitSuffix b = b ∧
        stripGitSuffix (stripGitSuffix b) = stripGitSuffix b :=
  ⟨by decide,
    claim7_extract_strips_git_idempotent "https://github.com/octocat/Hello-World"
      (by decide)⟩

/-- C9: on every URL the validator accepts, `extractRepoInfo` returns a
non-null result, so the parse-failure branch of the generation chain (the
`throw` of 'Could not parse repository info', surfaced as the catch block's
failure toast) is unreachable. -/
theorem claim9_parse_branch_unreachable (url : String)
    (h : validateGithubUrl url = true) :
    (extractRepoInfo url).isSome = true ∧
      ∀ (k : Fin 5),
        Effect.toast "Generation Failed"
            "Failed to generate Dockerfile. Please try again."
          ∉ generateDockerfile url k := by
  obtain ⟨o, b, hfind, hbne, hprops⟩ := findGithubMatch_of_valid url h
  have hext : extractRepoInfo url = some ⟨⟨o⟩, ⟨stripGitSuffix b⟩⟩ := by
    unfold extractRepoInfo
    rw [hfind]
  refine ⟨by rw [hext]; rfl, ?_⟩
  intro k
  simp [generateDockerfile, h, hext]

/-- Witness for C9 at a concrete valid URL. -/
theorem claim9_witness :
    validateGithubUrl "https://github.com/torvalds/linux" = true ∧
      ((extractRepoInfo "https://github.com/torvalds/linux").isSome = true ∧
        ∀ (k : Fin 5),
          Effect.toast "Generation Failed"
              "Failed to generate Dockerfile. Please try again."
            ∉ generateDockerfile "https://github.com/torvalds/linux" k) :=
  ⟨by decide,
    claim9_parse_branch_unreachable "https://github.com/torvalds/linux"
      (by decide)⟩

/-! ### Claims about the generation request handler -/

/-- C5: a request whose method is not POST gets a 405 response, and a POST
request with a missing `repoInfo` payload gets a 400 response; in both cases
no external model call is issued. -/
theorem claim5_method_and_payload_guards (env : Env) (req : Req)
    (up : UpstreamResponse)
    (h : req.method ≠ "POST" ∨ (req.method = "POST" ∧ req.repoInfo = none)) :
    (handler env req up).2 = [] ∧
      (handler env req up).1 =
        (if req.method = "POST"
         then ⟨400, .errorMsg "Repository information is required"⟩
         else ⟨405, .errorMsg "Method not allowed"⟩) := by
  rcases h with hm | ⟨hm, hri⟩
  · constructor <;> simp [handler, hm]
  · constructor <;> simp [handler, hm, hri]

/-- Witness for C5 at a concrete GET request. -/
theorem claim5_witness :
    ((Req.mk "GET" none).method ≠ "POST" ∨
      ((Req.mk "GET" none).method = "POST" ∧ (Req.mk "GET" none).repoInfo = none)) ∧
      ((handler ⟨some "k", none⟩ (Req.mk "GET" none) ⟨true, ⟨none, none⟩⟩).2 = [] ∧
        (handler ⟨some "k", none⟩ (Req.mk "GET" none) ⟨true, ⟨none, none⟩⟩).1 =
          (if (Req.mk "GET" none).method = "POST"
           then ⟨400, .errorMsg "Repository information is required"⟩
           else ⟨405, .errorMsg "Method not allowed"⟩)) :=
  ⟨Or.inl (by decide),
    claim5_method_and_payload_guards _ _ _ (Or.inl (by decide))⟩

/-- C3: a POST request with a non-empty `repoInfo` payload but no
`OPENROUTER_API_KEY` in the process environment gets a 500 response, and no
external model call is issued. -/
theorem claim3_missing_key_500_no_call (env : Env) (req : Req)
    (up : UpstreamResponse) (hm : req.method = "POST")
    (hr : req.repoInfo.isSome = true)
    (hk : env.OPENROUTER_API_KEY = none) :
    (handler env req up).1 = ⟨500, .errorMsg "API key not configured"⟩ ∧
      (handler env req up).2 = [] := by
  obtain ⟨info, hinfo⟩ := Option.isSome_iff_exists.mp hr
  constructor <;> simp [handler, hm, hinfo, hk]

/-- Witness for C3 at a concrete request and empty environment. -/
theorem claim3_witness :
    (Req.mk "POST" (some ⟨"octocat/Hello-World", "Ruby", "My first repository"⟩)).repoInfo.isSome
        = true ∧
      ((handler ⟨none, none⟩
          (Req.mk "POST" (some ⟨"octocat/Hello-World", "Ruby", "My first repository"⟩))
          ⟨true, ⟨none, none⟩⟩).1 = ⟨500, .errorMsg "API key not configured"⟩ ∧
        (handler ⟨none, none⟩
          (Req.mk "POST" (some ⟨"octocat/Hello-World", "Ruby", "My first repository"⟩))
          ⟨true, ⟨none, none⟩⟩).2 = []) :=
  ⟨rfl, claim3_missing_key_500_no_call _ _ _ rfl rfl rfl⟩

/-- C4: when the upstream model call responds non-ok, the handler returns a
500 response whose message is the upstream-provided error message when a
non-empty one is present, and the generic fallback string otherwise. -/
theorem claim4_upstream_failure_message (env : Env) (req : Req)
    (up : UpstreamResponse) (hm : req.method = "POST")
    (hr : req.repoInfo.isSome = true) (key : String)
    (hk : env.OPENROUTER_API_KEY = some key) (hk2 : key ≠ "")
    (hok : up.ok = false) :
    (handler env req up).1.status = 500 ∧
      (∀ e m, up.body.error = some e → e.message = some m → m ≠ "" →
        (handler env req up).1.body = .errorMsg m) ∧
      ((up.body.error = none ∨
          ∃ e, up.body.error = some e ∧
            (e.message = none ∨ e.message = some "")) →
        (handler env req up).1.body =
          .errorMsg "Failed to generate Dockerfile") := by
  obtain ⟨info, hinfo⟩ := Option.isSome_iff_exists.mp hr
  have hh : (handler env req up).1 =
      ⟨500, .errorMsg (extractErrorMessage up.body)⟩ := by
    simp [handler, hm, hinfo, hk, hk2, hok]
  refine ⟨by rw [hh], ?_, ?_⟩
  · intro e m he hme hm0
    rw [hh]
    simp [extractErrorMessage, he, hme, hm0]
  · rintro (hnone | ⟨e, he, hmn | hms⟩) <;> rw [hh] <;>
      simp [extractErrorMessage, fallbackError, *]

/-- Witness for C4 at a concrete upstream failure carrying a message. -/
theorem claim4_witness :
    (UpstreamResponse.mk false ⟨some ⟨some "Rate limit exceeded"⟩, none⟩).ok = false ∧
      ((handler ⟨some "k", none⟩
          (Req.mk "POST" (some ⟨"octocat/Hello-World", "Ruby", "My first repository"⟩))
          ⟨false, ⟨some ⟨some "Rate limit exceeded"⟩, none⟩⟩).1.status = 500 ∧
        (∀ e m,
          (UpstreamResponse.mk false ⟨some ⟨some "Rate limit exceeded"⟩, none⟩).body.error
              = some e →
            e.message = some m → m ≠ "" →
            (handler ⟨some "k", none⟩
              (Req.mk "POST" (some ⟨"octocat/Hello-World", "Ruby", "My first repository"⟩))
              ⟨false, ⟨some ⟨some "Rate limit exceeded"⟩, none⟩⟩).1.body = .errorMsg m) ∧
        (((UpstreamResponse.mk false ⟨some ⟨some "Rate limit exceeded"⟩, none⟩).body.error
              = none ∨
            ∃ e,
              (UpstreamResponse.mk false ⟨some ⟨some "Rate limit exceeded"⟩, none⟩).body.error
                  = some e ∧
                (e.message = none ∨ e.message = some "")) →
          (handler ⟨some "k", none⟩
            (Req.mk "POST" (some ⟨"octocat/Hello-World", "Ruby", "My first repository"⟩))
            ⟨false, ⟨some ⟨some "Rate limit exceeded"⟩, none⟩⟩).1.body =
              .errorMsg "Failed to generate Dockerfile")) :=
  ⟨rfl, claim4_upstream_failure_message _ _ _ rfl rfl "k" rfl (by decide) rfl⟩

/-- C8: every outbound completion request the handler issues goes to the
OpenRouter endpoint with the fixed model identifier, temperature 0.7 and
maximum output size 2000 tokens, and its user message embeds the repository's
language, name and description. -/
theorem claim8_outbound_request_fixed (env : Env) (req : Req)
    (up : UpstreamResponse) (r : OutboundRequest)
    (hr : r ∈ (handler env req up).2) :
    r.url = "https://openrouter.ai/api/v1/chat/completions" ∧
      r.model = "meta-llama/llama-3.1-8b-instruct:free" ∧
      r.temperature = 7 / 10 ∧ r.max_tokens = 2000 ∧
      ∃ info, req.repoInfo = some info ∧
        r.messages = [("system", systemContent), ("user", buildPrompt info)] ∧
        (∃ a b, buildPrompt info = a ++ (info.language ++ b)) ∧
        (∃ a b, buildPrompt info = a ++ (info.name ++ b)) ∧
        (∃ a b, buildPrompt info = a ++ (info.description ++ b)) := by
  by_cases hm : req.method = "POST"
  · cases hri : req.repoInfo with
    | none => simp [handler, hm, hri] at hr
    | some info =>
      cases hk : env.OPENROUTER_API_KEY with
      | none => simp [handler, hm, hri, hk] at hr
      | some key =>
        by_cases hke : key = ""
        · simp [handler, hm, hri, hk, hke] at hr
        · have hreq : r = buildRequest key
              (jsOrDefault env.NEXT_PUBLIC_SITE_URL "http://localhost:3000") info := by
            by_cases hok : up.ok = false
            · simp [handler, hm, hri, hk, hke, hok] at hr
              exact hr
            · cases hch : up.body.choices with
              | none =>
                simp [handler, hm, hri, hk, hke, hok, hch] at hr
                exact hr
              | some l =>
                simp [handler, hm, hri, hk, hke, hok, hch] at hr
                exact hr
          subst hreq
          refine ⟨rfl, rfl, rfl, rfl, info, rfl, rfl, ?_, ?_, ?_⟩
          · exact ⟨"Generate a production-ready Dockerfile for a ",
              " project named \"" ++ info.name ++
                "\". \n    \nProject details:\n- Language: " ++ info.language ++
                "\n- Description: " ++ info.description ++
                "\n\nRequirements:\n- Use multi-stage builds when appropriate\n- Include security best practices\n- Add health checks\n- Optimize for production\n- Include comments explaining each step\n- Use appropriate base images\n- Set up proper user permissions\n- Include environment variables where needed\n\nGenerate ONLY the Dockerfile content, no additional text or explanations.",
              by simp only [buildPrompt, String.append_assoc]⟩
          · exact ⟨"Generate a production-ready Dockerfile for a " ++
                info.language ++ " project named \"",
              "\". \n    \nProject details:\n- Language: " ++ info.language ++
                "\n- Description: " ++ info.description ++
                "\n\nRequirements:\n- Use multi-stage builds when appropriate\n- Include security best practices\n- Add health checks\n- Optimize for production\n- Include comments explaining each step\n- Use appropriate base images\n- Set up proper user permissions\n- Include environment variables where needed\n\nGenerate ONLY the Dockerfile content, no additional text or explanations.",
              by simp only [buildPrompt, String.append_assoc]⟩
          · exact ⟨"Generate a production-ready Dockerfile for a " ++
                info.language ++ " project named \"" ++ info.name ++
                "\". \n    \nProject details:\n- Language: " ++ info.language ++
                "\n- Description: ",
              "\n\nRequirements:\n- Use multi-stage builds when appropriate\n- Include security best practices\n- Add health checks\n- Optimize for production\n- Include comments explaining each step\n- Use appropriate base images\n- Set up proper user permissions\n- Include environment variables where needed\n\nGenerate ONLY the Dockerfile content, no additional text or explanations.",
              by simp only [buildPrompt, String.append_assoc]⟩
  · simp [handler, hm] at hr

/-- Witness for C8 at a concrete successful request. -/
theorem claim8_witness :
    buildRequest "k" "http://localhost:3000"
        ⟨"octocat/Hello-World", "Ruby", "My first repository"⟩
      ∈ (handler ⟨some "k", none⟩
          (Req.mk "POST" (some ⟨"octocat/Hello-World", "Ruby", "My first repository"⟩))
          ⟨true, ⟨none, some []⟩⟩).2 ∧
      ((buildRequest "k" "http://localhost:3000"
          ⟨"octocat/Hello-World", "Ruby", "My first repository"⟩).url =
        "https://openrouter.ai/api/v1/chat/completions" ∧
      (buildRequest "k" "http://localhost:3000"
          ⟨"octocat/Hello-World", "Ruby", "My first repository"⟩).model =
        "meta-llama/llama-3.1-8b-instruct:free" ∧
      (buildRequest "k" "http://localhost:3000"
          ⟨"octocat/Hello-World", "Ruby", "My first repository"⟩).temperature = 7 / 10 ∧
      (buildRequest "k" "http://localhost:3000"
          ⟨"octocat/Hello-World", "Ruby", "My first repository"⟩).max_tokens = 2000 ∧
      ∃ info,
        (Req.mk "POST"
            (some (⟨"octocat/Hello-World", "Ruby", "My first repository"⟩ : RepoInfo))).repoInfo
          = some info ∧
        (buildRequest "k" "http://localhost:3000"
            ⟨"octocat/Hello-World", "Ruby", "My first repository"⟩).messages =
          [("system", systemContent), ("user", buildPrompt info)] ∧
        (∃ a b, buildPrompt info = a ++ (info.language ++ b)) ∧
        (∃ a b, buildPrompt info = a ++ (info.name ++ b)) ∧
        (∃ a b, buildPrompt info = a ++ (info.description ++ b))) := by
  have hmem : buildRequest "k" "http://localhost:3000"
      ⟨"octocat/Hello-World", "Ruby", "My first repository"⟩
      ∈ (handler ⟨some "k", none⟩
          (Req.mk "POST" (some ⟨"octocat/Hello-World", "Ruby", "My first repository"⟩))
          ⟨true, ⟨none, some []⟩⟩).2 := by
    simp [handler, jsOrDefault]
  exact ⟨hmem, claim8_outbound_request_fixed _ _ _ _ hmem⟩

/-- C10 counterexample: with an HTTP-successful upstream response whose body
lacks the `choices` field entirely (a body containing no completions), the
handler returns a 500 error — the `data.choices[0]` access throws — rather
than a 200 success with an empty dockerfile. -/
theorem claim10_counterexample :
    (handler ⟨some "k", none⟩
        ⟨"POST", some ⟨"octocat/Hello-World", "Ruby", "My first repository"⟩⟩
        ⟨true, ⟨none, none⟩⟩).1 =
      ⟨500, .errorMsg "Cannot read properties of undefined (reading '0')"⟩ := rfl

/-- C10 (amended): when the upstream call is HTTP-successful and the body's
`choices` field is present but holds no completion, or its first completion
lacks message content, the handler returns 200 with an empty dockerfile. -/
theorem claim10_empty_content_still_200 (env : Env) (req : Req)
    (up : UpstreamResponse) (hm : req.method = "POST")
    (hr : req.repoInfo.isSome = true) (key : String)
    (hk : env.OPENROUTER_API_KEY = some key) (hk2 : key ≠ "")
    (hok : up.ok = true) (l : List ChoiceObj)
    (hch : up.body.choices = some l)
    (hempty : l = [] ∨ ∃ c l2, l = c :: l2 ∧
      (c.message = none ∨ ∃ mm, c.message = some mm ∧
        (mm.content = none ∨ mm.content = some ""))) :
    (handler env req up).1 = ⟨200, .success ""⟩ := by
  obtain ⟨info, hinfo⟩ := Option.isSome_iff_exists.mp hr
  have hfc : firstChoiceContent l = "" := by
    rcases hempty with rfl | ⟨c, l2, rfl, hcn | ⟨mm, hmm, hmn | hms⟩⟩ <;>
      simp [firstChoiceContent, *]
  simp [handler, hm, hinfo, hk, hk2, hok, hch, hfc]

/-- Witness for the amended C10 at a concrete empty `choices` array. -/
theorem claim10_witness :
    (UpstreamResponse.mk true ⟨none, some []⟩).ok = true ∧
      (handler ⟨some "k", none⟩
          ⟨"POST", some ⟨"torvalds/linux", "C", "Linux kernel source tree"⟩⟩
          ⟨true, ⟨none, some []⟩⟩).1 = ⟨200, .success ""⟩ :=
  ⟨rfl,
    claim10_empty_content_still_200 _ _ _ rfl rfl "k" rfl (by decide) rfl []
      rfl (Or.inl rfl)⟩

/-- C1 counterexample: on a successful completion call the `dockerfile` field
the handler returns is the raw first-completion content, not its trimmed
form — the two differ when the content carries leading or trailing
whitespace. -/
theorem claim1_counterexample :
    (handler ⟨some "k", none⟩
        ⟨"POST", some ⟨"octocat/Hello-World", "Ruby", "My first repository"⟩⟩
        ⟨true, ⟨none, some [⟨some ⟨some "  FROM node:18\n"⟩⟩]⟩⟩).1 =
      ⟨200, .success "  FROM node:18\n"⟩ ∧
      "  FROM node:18\n" ≠ jsTrim "  FROM node:18\n" := by
  constructor
  · rfl
  · decide

/-- C1 (amended): on a successful completion call the handler returns the
first completion's raw message content as the `dockerfile` field; the client
trims it before display, the displayed text is exactly that trimmed string,
and (when nonempty) the download action produces a file whose content is
literally the displayed text. -/
theorem claim1_success_display_download (env : Env) (req : Req)
    (up : UpstreamResponse) (hm : req.method = "POST") (info : RepoInfo)
    (hinfo : req.repoInfo = some info) (key : String)
    (hk : env.OPENROUTER_API_KEY = some key) (hk2 : key ≠ "")
    (hok : up.ok = true) (c : ChoiceObj) (l : List ChoiceObj)
    (m : MessageObj) (s : String) (hch : up.body.choices = some (c :: l))
    (hcm : c.message = some m) (hmc : m.content = some s) :
    (handler env req up).1 = ⟨200, .success s⟩ ∧
      displayedDockerfile s = jsTrim s ∧
      (displayedDockerfile s ≠ "" →
        downloadDockerfile (displayedDockerfile s) =
          some (displayedDockerfile s)) := by
  refine ⟨?_, rfl, ?_⟩
  · simp [handler, hm, hinfo, hk, hk2, hok, hch, firstChoiceContent, hcm, hmc]
  · intro hne
    simp [downloadDockerfile, hne]

/-- Witness for the amended C1 at a concrete completion text. -/
theorem claim1_witness :
    (UpstreamResponse.mk true
        ⟨none, some [⟨some ⟨some "FROM ruby:3.2\nWORKDIR /app\n"⟩⟩]⟩).ok = true ∧
      ((handler ⟨some "k", none⟩
          ⟨"POST", some ⟨"octocat/Hello-World", "Ruby", "My first repository"⟩⟩
          ⟨true, ⟨none, some [⟨some ⟨some "FROM ruby:3.2\nWORKDIR /app\n"⟩⟩]⟩⟩).1 =
        ⟨200, .success "FROM ruby:3.2\nWORKDIR /app\n"⟩ ∧
      displayedDockerfile "FROM ruby:3.2\nWORKDIR /app\n" =
        jsTrim "FROM ruby:3.2\nWORKDIR /app\n" ∧
      (displayedDockerfile "FROM ruby:3.2\nWORKDIR /app\n" ≠ "" →
        downloadDockerfile (displayedDockerfile "FROM ruby:3.2\nWORKDIR /app\n") =
          some (displayedDockerfile "FROM ruby:3.2\nWORKDIR /app\n"))) :=
  ⟨rfl,
    claim1_success_display_download _ _ _ rfl
      ⟨"octocat/Hello-World", "Ruby", "My first repository"⟩ rfl "k" rfl
      (by decide) rfl ⟨some ⟨some "FROM ruby:3.2\nWORKDIR /app\n"⟩⟩ []
      ⟨some "FROM ruby:3.2\nWORKDIR /app\n"⟩ "FROM ruby:3.2\nWORKDIR /app\n"
      rfl rfl rfl⟩

/-! ### Claim about the spec's generation chain -/

/-- C6: whenever the repository-metadata fetch returns a non-success
response, the generation chain never calls the generation endpoint, and if
the fetch was reached at all the "not found" message is shown. -/
theorem claim6_metadata_failure_aborts (url : String)
    (meta : MetadataFetchResult) (hm : meta.ok = false) :
    (∀ info, ChainEffect.generateCall info ∉ generationChainSpec url meta) ∧
      (∀ o r, ChainEffect.metadataFetch o r ∈ generationChainSpec url meta →
        ChainEffect.toast "Repository not found" "Please check the URL and try again"
          ∈ generationChainSpec url meta) := by
  by_cases hv : validateGithubUrl url = false
  · constructor
    · intro info
      simp [generationChainSpec, hv]
    · intro o r hmem
      simp [generationChainSpec, hv] at hmem
  · cases hext : extractRepoInfo url with
    | none =>
      constructor
      · intro info
        simp [generationChainSpec, hv, hext]
      · intro o r hmem
        simp [generationChainSpec, hv, hext] at hmem
    | some ref =>
      constructor
      · intro info
        simp [generationChainSpec, hv, hext, hm]
      · intro o r hmem
        simp [generationChainSpec, hv, hext, hm]

/-- Witness for C6 at a concrete valid URL and failed metadata fetch. -/
theorem claim6_witness :
    (MetadataFetchResult.mk false ⟨none, none⟩).ok = false ∧
      ((∀ info, ChainEffect.generateCall info ∉
          generationChainSpec "https://github.com/rails/rails" ⟨false, ⟨none, none⟩⟩) ∧
        (∀ o r, ChainEffect.metadataFetch o r ∈
            generationChainSpec "https://github.com/rails/rails" ⟨false, ⟨none, none⟩⟩ →
          ChainEffect.toast "Repository not found" "Please check the URL and try again"
            ∈ generationChainSpec "https://github.com/rails/rails" ⟨false, ⟨none, none⟩⟩)) :=
  ⟨rfl, claim6_metadata_failure_aborts "https://github.com/rails/rails" _ rfl⟩

end RepoDockerWizard
